import Mathlib

/-!
Shallow embedding of `src/util.c` (AVR utility functions: timer-driven
blocking wait, push-button reader, shaft-encoder reader, stepper-motor
sequencer), together with theorems settling the specification's claims.

Registers are 8-bit memory-mapped I/O cells, modelled as natural numbers
(every value written is below 256).  The tick counter `timer2_tick` is a
C `unsigned int` incremented by one on each timer-compare interrupt;
the polling loop of `wait_ms` is modelled as the interleaving in which the
periodic interrupt fires between consecutive polls, so the counter advances
by one per period until the poll condition releases the loop.
-/

namespace RobotUtil

/-- Hardware state touched by the timer driver and the blocking wait:
the tick counter, the three timer registers and the global-interrupt flag
(set by `sei()`). -/
structure HWState where
  timer2_tick : Nat
  OCR2 : Nat
  TCCR2 : Nat
  TIMSK : Nat
  sei_flag : Bool
  deriving Repr, DecidableEq

/-- `timer2_start` from `src/util.c` lines 36-47: zeroes the tick counter,
programs `TCCR2`/`TIMSK` when `unit` is 0 (slow) or 1 (fast), and always
executes `sei()`. -/
def timer2_start (unit : Int) (s : HWState) : HWState :=
  let s := { s with timer2_tick := 0 }
  let s := if unit = 0 then
      { s with TCCR2 := 0b00001011, TIMSK := s.TIMSK ||| 0b10000000 }
    else s
  let s := if unit = 1 then
      { s with TCCR2 := 0b00001001, TIMSK := s.TIMSK ||| 0b10000000 }
    else s
  { s with sei_flag := true }

/-- `timer2_stop` from `src/util.c` lines 51-54: clears bit 7 of `TIMSK`
(`TIMSK &= ~0b10000000` on the 8-bit register) and bit 7 of `TCCR2`. -/
def timer2_stop (s : HWState) : HWState :=
  { s with TIMSK := s.TIMSK &&& 0b01111111, TCCR2 := s.TCCR2 &&& 0b01111111 }

/-- The busy loop `while (timer2_tick < time_val);` of `wait_ms`, with the
periodic interrupt `ISR(TIMER2_COMP_vect) { timer2_tick++; }` firing once
per period between polls: the counter advances by one until the poll sees
`timer2_tick >= time_val`.  Returns the counter value observed at exit. -/
def wait_poll (time_val : Nat) (tick : Nat) : Nat :=
  if tick < time_val then wait_poll time_val (tick + 1) else tick
  termination_by time_val - tick

/-- `wait_ms` from `src/util.c` lines 22-32: sets `OCR2 = 250`, zeroes the
tick counter, unconditionally calls `timer2_start(0)`, busy-waits on the
counter, then calls `timer2_stop()`.  The second component records whether
`timer2_start` was invoked during the call (it always is: the call at line
26 is unconditional). -/
def wait_ms (time_val : Nat) (s : HWState) : HWState × Bool :=
  let s := { s with OCR2 := 250 }
  let s := { s with timer2_tick := 0 }
  let s := timer2_start 0 s
  let s := { s with timer2_tick := wait_poll time_val s.timer2_tick }
  (timer2_stop s, true)

/-- State touched by the stepper sequencer: the static `coil_position`,
the output port `PORTE`, and a count of `wait_ms` invocations (recording
that a blocking wait happened, for the frame claims). -/
structure StepperState where
  coil_position : Nat
  PORTE : Nat
  wait_calls : Nat
  deriving Repr, DecidableEq

/-- One clockwise coil transition (`src/util.c` lines 151-155):
`if (coil_position == 0b1000) coil_position = 0b0001; else coil_position <<= 1;` -/
def stepCW (c : Nat) : Nat :=
  if c = 0b1000 then 0b0001 else c <<< 1

/-- One counterclockwise coil transition (`src/util.c` lines 164-168):
`if (coil_position == 0b0001) coil_position = 0b1000; else coil_position >>= 1;` -/
def stepCCW (c : Nat) : Nat :=
  if c = 0b0001 then 0b1000 else c >>> 1

/-- One iteration of the clockwise loop body of `move_stepper_motor_by_step`
(lines 150-160): advance the coil, clear the high nibble of `PORTE`, OR in
`full_byte = coil_position << 4` (truncated to the 8-bit `char`), then
`wait_ms(2)`. -/
def stepIterCW (s : StepperState) : StepperState :=
  let c := stepCW s.coil_position
  { coil_position := c
    PORTE := (s.PORTE &&& 0x0F) ||| ((c <<< 4) % 256)
    wait_calls := s.wait_calls + 1 }

/-- One iteration of the counterclockwise loop body of
`move_stepper_motor_by_step` (lines 163-173). -/
def stepIterCCW (s : StepperState) : StepperState :=
  let c := stepCCW s.coil_position
  { coil_position := c
    PORTE := (s.PORTE &&& 0x0F) ||| ((c <<< 4) % 256)
    wait_calls := s.wait_calls + 1 }

/-- `move_stepper_motor_by_step` from `src/util.c` lines 143-177: runs the
clockwise loop body `num_steps` times when `direction == 1`, the
counterclockwise body when `direction == -1`, and otherwise nothing; the
`for (i = 0; i < num_steps; i++)` loop performs `max num_steps 0`
(that is, `num_steps.toNat`) iterations.  Afterwards `PORTE &= 0x0F`
clears the coil pins. -/
def move_stepper_motor_by_step (num_steps direction : Int) (s : StepperState) :
    StepperState :=
  let s :=
    if direction = 1 then stepIterCW^[num_steps.toNat] s
    else if direction = -1 then stepIterCCW^[num_steps.toNat] s
    else s
  { s with PORTE := s.PORTE &&& 0x0F }

/-- Initial stepper state: the static initializer `coil_position = 0b0001`
(line 146), with an arbitrary initial `PORTE` and no waits performed. -/
def stepper_init_state (porte0 : Nat) : StepperState :=
  { coil_position := 0b0001, PORTE := porte0, wait_calls := 0 }

/-- `c` is a 4-bit one-hot value. -/
def oneHot (c : Nat) : Bool :=
  c == 1 || c == 2 || c == 4 || c == 8

/-- The scanning loop of `read_push_buttons` (`src/util.c` lines 79-84):
`for (shift = 5; shift > -1; shift--) if (((PINC >> shift) & 0x01) == 0) break;`
followed by `return shift + 1;`.  The argument is the current `shift`. -/
def rpb_scan (pinc : Nat) : Nat → Nat
  | 0 => if (pinc >>> 0) &&& 0x01 = 0 then 1 else 0
  | shift + 1 =>
    if (pinc >>> (shift + 1)) &&& 0x01 = 0 then shift + 2
    else rpb_scan pinc shift

/-- `read_push_buttons` from `src/util.c` lines 76-85, as a function of the
input register `PINC`. -/
def read_push_buttons (pinc : Nat) : Nat :=
  rpb_scan pinc 5

/-- `read_shaft_encoder` from `src/util.c` lines 107-124, as a function of
`PINC` and the static `old_value` (an `int8_t`, initially 3): returns the
reported rotation and the updated `old_value` (always the newly observed
`PINC >> 6`). -/
def read_shaft_encoder (pinc : Nat) (old_value : Int) : Int × Int :=
  let new_value : Int := ((pinc >>> 6 : Nat) : Int)
  let rotation : Int :=
    if old_value = 3 then
      let r := if new_value = 1 then 1 else 0
      if new_value = 2 then -1 else r
    else 0
  (rotation, new_value)

/-! ## Helper lemmas -/

/-- The polling loop started at or below the requested duration exits with
the counter exactly at the duration: the counter is incremented once per
period and the poll releases at the first value not below `time_val`. -/
theorem wait_poll_of_le (time_val : Nat) :
    ∀ c, c ≤ time_val → wait_poll time_val c = time_val := by
  have key : ∀ n c, time_val - c ≤ n → c ≤ time_val →
      wait_poll time_val c = time_val := by
    intro n
    induction n with
    | zero =>
      intro c h1 h2
      rw [wait_poll]
      have hge : ¬ c < time_val := by omega
      simp [hge]
      omega
    | succ n ih =>
      intro c h1 h2
      rw [wait_poll]
      by_cases hlt : c < time_val
      · simp [hlt]
        exact ih (c + 1) (by omega) (by omega)
      · simp [hlt]
        omega
  intro c hc
  exact key (time_val - c) c (le_refl _) hc

/-- A poll that sees the counter below the duration does not exit the loop:
it proceeds to observe the next period's increment. -/
theorem wait_poll_continue (time_val c : Nat) (h : c < time_val) :
    wait_poll time_val c = wait_poll time_val (c + 1) := by
  rw [wait_poll]
  simp [h]

/-- The tick counter at the moment `wait_ms` returns. -/
theorem wait_ms_tick (time_val : Nat) (s : HWState) :
    (wait_ms time_val s).1.timer2_tick = wait_poll time_val 0 := by
  simp [wait_ms, timer2_start, timer2_stop]

/-- The coil position after `n` clockwise loop iterations is `n` clockwise
coil transitions applied to the starting coil position. -/
theorem coil_iterCW (n : Nat) (s : StepperState) :
    (stepIterCW^[n] s).coil_position = stepCW^[n] s.coil_position := by
  induction n generalizing s with
  | zero => rfl
  | succ n ih =>
    rw [Function.iterate_succ_apply, Function.iterate_succ_apply, ih]
    rfl

/-- The coil position after `n` counterclockwise loop iterations. -/
theorem coil_iterCCW (n : Nat) (s : StepperState) :
    (stepIterCCW^[n] s).coil_position = stepCCW^[n] s.coil_position := by
  induction n generalizing s with
  | zero => rfl
  | succ n ih =>
    rw [Function.iterate_succ_apply, Function.iterate_succ_apply, ih]
    rfl

/-- Each clockwise loop iteration performs exactly one blocking wait. -/
theorem waits_iterCW (n : Nat) (s : StepperState) :
    (stepIterCW^[n] s).wait_calls = s.wait_calls + n := by
  induction n generalizing s with
  | zero => rfl
  | succ n ih =>
    rw [Function.iterate_succ_apply, ih]
    simp [stepIterCW]
    omega

/-- Each counterclockwise loop iteration performs exactly one blocking wait. -/
theorem waits_iterCCW (n : Nat) (s : StepperState) :
    (stepIterCCW^[n] s).wait_calls = s.wait_calls + n := by
  induction n generalizing s with
  | zero => rfl
  | succ n ih =>
    rw [Function.iterate_succ_apply, ih]
    simp [stepIterCCW]
    omega

/-- Coil position after a clockwise `move_stepper_motor_by_step` call. -/
theorem move_coil_CW (n : Int) (s : StepperState) :
    (move_stepper_motor_by_step n 1 s).coil_position =
      stepCW^[n.toNat] s.coil_position := by
  simp [move_stepper_motor_by_step, coil_iterCW]

/-- Coil position after a counterclockwise `move_stepper_motor_by_step` call. -/
theorem move_coil_CCW (n : Int) (s : StepperState) :
    (move_stepper_motor_by_step n (-1) s).coil_position =
      stepCCW^[n.toNat] s.coil_position := by
  simp [move_stepper_motor_by_step, coil_iterCCW]

/-- One clockwise transition preserves one-hotness. -/
theorem oneHot_stepCW (c : Nat) (h : oneHot c = true) : oneHot (stepCW c) = true := by
  have hc : c = 1 ∨ c = 2 ∨ c = 4 ∨ c = 8 := by
    simpa [oneHot, or_assoc] using h
  rcases hc with h' | h' | h' | h' <;> subst h' <;> decide

/-- One counterclockwise transition preserves one-hotness. -/
theorem oneHot_stepCCW (c : Nat) (h : oneHot c = true) : oneHot (stepCCW c) = true := by
  have hc : c = 1 ∨ c = 2 ∨ c = 4 ∨ c = 8 := by
    simpa [oneHot, or_assoc] using h
  rcases hc with h' | h' | h' | h' <;> subst h' <;> decide

/-- Any number of clockwise transitions preserves one-hotness. -/
theorem oneHot_iterCW (n : Nat) (c : Nat) (h : oneHot c = true) :
    oneHot (stepCW^[n] c) = true := by
  induction n generalizing c with
  | zero => exact h
  | succ n ih =>
    rw [Function.iterate_succ_apply]
    exact ih _ (oneHot_stepCW c h)

/-- Any number of counterclockwise transitions preserves one-hotness. -/
theorem oneHot_iterCCW (n : Nat) (c : Nat) (h : oneHot c = true) :
    oneHot (stepCCW^[n] c) = true := by
  induction n generalizing c with
  | zero => exact h
  | succ n ih =>
    rw [Function.iterate_succ_apply]
    exact ih _ (oneHot_stepCCW c h)

/-- A call with a direction other than +1 or -1 leaves the coil position,
to say nothing of the wait count, untouched. -/
theorem move_coil_other (n d : Int) (s : StepperState)
    (h1 : d ≠ 1) (h2 : d ≠ -1) :
    (move_stepper_motor_by_step n d s).coil_position = s.coil_position := by
  simp [move_stepper_motor_by_step, h1, h2]

/-- Any single `move_stepper_motor_by_step` call preserves one-hotness of
the coil position. -/
theorem oneHot_move (n d : Int) (s : StepperState)
    (h : oneHot s.coil_position = true) :
    oneHot (move_stepper_motor_by_step n d s).coil_position = true := by
  by_cases h1 : d = 1
  · subst h1
    rw [move_coil_CW]
    exact oneHot_iterCW _ _ h
  · by_cases h2 : d = -1
    · subst h2
      rw [move_coil_CCW]
      exact oneHot_iterCCW _ _ h
    · rw [move_coil_other n d s h1 h2]
      exact h

/-! ## Claims -/

/-- C1, counterexample: the claim says that for `duration_ticks = 0` the
blocking wait does not invoke `timer2_start` and leaves `TCCR2`, `TIMSK`,
`OCR2` unchanged.  On the code, starting from all-zero registers,
`wait_ms 0` does invoke `timer2_start` (the call at line 26 is
unconditional) and changes `OCR2` from 0 to 250 and `TCCR2` from 0 to
`0b00001011`. -/
theorem wait_ms_zero_starts_timer_cex :
    (wait_ms 0 ⟨0, 0, 0, 0, false⟩).2 = true ∧
    (wait_ms 0 ⟨0, 0, 0, 0, false⟩).1.OCR2 = 250 ∧
    (wait_ms 0 ⟨0, 0, 0, 0, false⟩).1.TCCR2 = 0b00001011 := by
  refine ⟨rfl, ?_, ?_⟩ <;> simp [wait_ms, wait_poll, timer2_start, timer2_stop] <;> decide

/-- C1, amended: for `duration_ticks = 0` the polling loop performs zero
iterations (the tick counter is still 0 on return), but `timer2_start` IS
invoked: `OCR2` is set to 250, `TCCR2` ends at `0b00001011`, bit 7 of
`TIMSK` is set by the start and cleared again by the stop, and interrupts
are globally enabled. -/
theorem wait_ms_zero_effect (s : HWState) :
    wait_ms 0 s =
      ({ timer2_tick := 0, OCR2 := 250, TCCR2 := 0b00001011,
         TIMSK := (s.TIMSK ||| 0b10000000) &&& 0b01111111,
         sei_flag := true }, true) := by
  simp [wait_ms, wait_poll, timer2_start, timer2_stop]
  decide

/-- C2: for every `duration_ticks ≥ 1`, the blocking wait — modelled as the
polling loop interleaved with the periodic interrupt that increments the
tick counter by one per period — does not exit while the counter is below
`duration_ticks` (each such poll waits another period), and the counter at
return equals `duration_ticks`: the wait returns neither before the counter
reaches the duration nor more than one period after it does. -/
theorem wait_ms_returns_on_time (time_val : Nat) (s : HWState)
    (h : 1 ≤ time_val) :
    (∀ c, c < time_val → wait_poll time_val c = wait_poll time_val (c + 1)) ∧
    time_val ≤ (wait_ms time_val s).1.timer2_tick ∧
    (wait_ms time_val s).1.timer2_tick < time_val + 1 := by
  refine ⟨fun c hc => wait_poll_continue time_val c hc, ?_, ?_⟩ <;>
    rw [wait_ms_tick, wait_poll_of_le time_val 0 (Nat.zero_le _)] <;> omega

/-- Witness for C2 at `duration_ticks = 3`. -/
theorem wait_ms_returns_on_time_witness :
    (∀ c, c < 3 → wait_poll 3 c = wait_poll 3 (c + 1)) ∧
    3 ≤ (wait_ms 3 ⟨0, 0, 0, 0, false⟩).1.timer2_tick ∧
    (wait_ms 3 ⟨0, 0, 0, 0, false⟩).1.timer2_tick < 3 + 1 :=
  wait_ms_returns_on_time 3 ⟨0, 0, 0, 0, false⟩ (by decide)

/-- C9: `timer2_start` with a unit other than 0 (slow) or 1 (fast) still
zeroes the tick counter and globally enables interrupts (`sei()`), but
leaves `TCCR2`, `TIMSK` (and `OCR2`) unchanged, so the periodic interrupt
is never configured or enabled by such a call. -/
theorem timer2_start_invalid_unit (unit : Int) (s : HWState)
    (h0 : unit ≠ 0) (h1 : unit ≠ 1) :
    timer2_start unit s =
      { timer2_tick := 0, OCR2 := s.OCR2, TCCR2 := s.TCCR2,
        TIMSK := s.TIMSK, sei_flag := true } := by
  simp [timer2_start, h0, h1]

/-- Witness for C9 at `unit = 2`. -/
theorem timer2_start_invalid_unit_witness :
    timer2_start 2 ⟨5, 6, 7, 8, false⟩ = ⟨0, 6, 7, 8, true⟩ := by
  exact timer2_start_invalid_unit 2 ⟨5, 6, 7, 8, false⟩ (by decide) (by decide)

/-- Masking a value down to its low nibble leaves nothing in the high
nibble. -/
theorem low_nibble_masked (x : Nat) : (x &&& 0x0F) &&& 0xF0 = 0 := by
  have h : (0x0F : Nat) &&& 0xF0 = 0 := by decide
  rw [Nat.and_assoc, h, Nat.and_zero]

/-- C3: each single step of `move_stepper_motor_by_step` rotates the coil
position one bit position with wraparound in the requested direction: from
`0b0001`, four single clockwise steps visit `0b0010`, `0b0100`, `0b1000`,
`0b0001`, four single counterclockwise steps visit `0b1000`, `0b0100`,
`0b0010`, `0b0001`, and four consecutive steps in either direction return
any one-hot coil position to its starting value. -/
theorem move_stepper_single_step_sequence (s : StepperState)
    (h : s.coil_position = 0b0001) :
    (move_stepper_motor_by_step 1 1 s).coil_position = 0b0010 ∧
    (move_stepper_motor_by_step 1 1
      (move_stepper_motor_by_step 1 1 s)).coil_position = 0b0100 ∧
    (move_stepper_motor_by_step 1 1 (move_stepper_motor_by_step 1 1
      (move_stepper_motor_by_step 1 1 s))).coil_position = 0b1000 ∧
    (move_stepper_motor_by_step 1 1 (move_stepper_motor_by_step 1 1
      (move_stepper_motor_by_step 1 1
        (move_stepper_motor_by_step 1 1 s)))).coil_position = 0b0001 ∧
    (move_stepper_motor_by_step 1 (-1) s).coil_position = 0b1000 ∧
    (move_stepper_motor_by_step 1 (-1)
      (move_stepper_motor_by_step 1 (-1) s)).coil_position = 0b0100 ∧
    (move_stepper_motor_by_step 1 (-1) (move_stepper_motor_by_step 1 (-1)
      (move_stepper_motor_by_step 1 (-1) s))).coil_position = 0b0010 ∧
    (move_stepper_motor_by_step 1 (-1) (move_stepper_motor_by_step 1 (-1)
      (move_stepper_motor_by_step 1 (-1)
        (move_stepper_motor_by_step 1 (-1) s)))).coil_position = 0b0001 ∧
    (∀ t : StepperState, oneHot t.coil_position = true →
      (move_stepper_motor_by_step 4 1 t).coil_position = t.coil_position ∧
      (move_stepper_motor_by_step 4 (-1) t).coil_position =
        t.coil_position) := by
  have k1 : ∀ t : StepperState,
      (move_stepper_motor_by_step 1 1 t).coil_position =
        stepCW t.coil_position := by
    intro t
    rw [move_coil_CW]
    rfl
  have k2 : ∀ t : StepperState,
      (move_stepper_motor_by_step 1 (-1) t).coil_position =
        stepCCW t.coil_position := by
    intro t
    rw [move_coil_CCW]
    rfl
  refine ⟨?_, ?_, ?_, ?_, ?_, ?_, ?_, ?_, ?_⟩
  · rw [k1, h]; decide
  · rw [k1, k1, h]; decide
  · rw [k1, k1, k1, h]; decide
  · rw [k1, k1, k1, k1, h]; decide
  · rw [k2, h]; decide
  · rw [k2, k2, h]; decide
  · rw [k2, k2, k2, h]; decide
  · rw [k2, k2, k2, k2, h]; decide
  · intro t ht
    have hc : t.coil_position = 1 ∨ t.coil_position = 2 ∨
        t.coil_position = 4 ∨ t.coil_position = 8 := by
      simpa [oneHot, or_assoc] using ht
    constructor
    · rw [move_coil_CW]
      rcases hc with h' | h' | h' | h' <;> rw [h'] <;> rfl
    · rw [move_coil_CCW]
      rcases hc with h' | h' | h' | h' <;> rw [h'] <;> rfl

/-- Witness for C3 from the initial state (coil position `0b0001`). -/
theorem move_stepper_single_step_sequence_witness :
    (move_stepper_motor_by_step 1 1
      (stepper_init_state 0)).coil_position = 0b0010 :=
  (move_stepper_single_step_sequence (stepper_init_state 0) rfl).1

/-- C4: starting from the static initializer `coil_position = 0b0001`, the
coil position stays a 4-bit one-hot value (1, 2, 4 or 8) after any sequence
of `move_stepper_motor_by_step` calls, whatever their `num_steps` and
`direction` arguments. -/
theorem coil_position_always_one_hot (calls : List (Int × Int))
    (porte0 : Nat) :
    oneHot ((calls.foldl
      (fun s c => move_stepper_motor_by_step c.1 c.2 s)
      (stepper_init_state porte0)).coil_position) = true := by
  have key : ∀ (l : List (Int × Int)) (s : StepperState),
      oneHot s.coil_position = true →
      oneHot ((l.foldl
        (fun s c => move_stepper_motor_by_step c.1 c.2 s) s).coil_position) =
        true := by
    intro l
    induction l with
    | nil => exact fun s hs => hs
    | cons a l ih =>
      intro s hs
      exact ih _ (oneHot_move a.1 a.2 s hs)
  exact key calls _ rfl

/-- C5: after every `move_stepper_motor_by_step` call — any `num_steps`
(including 0) and any `direction` — the coil output pins (the high nibble
of `PORTE`) end cleared: the final `PORTE &= 0x0F` de-energizes the
coils. -/
theorem move_stepper_clears_pins (n d : Int) (s : StepperState) :
    (move_stepper_motor_by_step n d s).PORTE &&& 0xF0 = 0 := by
  simp only [move_stepper_motor_by_step]
  exact low_nibble_masked _

/-- C6: for any `direction` other than +1 or -1,
`move_stepper_motor_by_step` takes no steps: the coil position and the
count of blocking waits are unchanged, and the coil output pins are still
cleared at the end. -/
theorem move_stepper_invalid_direction (n d : Int) (s : StepperState)
    (h1 : d ≠ 1) (h2 : d ≠ -1) :
    (move_stepper_motor_by_step n d s).coil_position = s.coil_position ∧
    (move_stepper_motor_by_step n d s).wait_calls = s.wait_calls ∧
    (move_stepper_motor_by_step n d s).PORTE = s.PORTE &&& 0x0F ∧
    (move_stepper_motor_by_step n d s).PORTE &&& 0xF0 = 0 := by
  refine ⟨?_, ?_, ?_, ?_⟩ <;>
    simp [move_stepper_motor_by_step, h1, h2, low_nibble_masked]

/-- Witness for C6 at `direction = 0`. -/
theorem move_stepper_invalid_direction_witness :
    (move_stepper_motor_by_step 7 0 ⟨2, 0xAB, 5⟩).coil_position = 2 ∧
    (move_stepper_motor_by_step 7 0 ⟨2, 0xAB, 5⟩).wait_calls = 5 ∧
    (move_stepper_motor_by_step 7 0 ⟨2, 0xAB, 5⟩).PORTE = 0x0B ∧
    (move_stepper_motor_by_step 7 0 ⟨2, 0xAB, 5⟩).PORTE &&& 0xF0 = 0 := by
  exact move_stepper_invalid_direction 7 0 ⟨2, 0xAB, 5⟩ (by decide) (by decide)

/-- C10: for `num_steps ≤ 0` (negative values included) and a valid
direction, the `for` loop of `move_stepper_motor_by_step` performs zero
iterations: the coil position and the count of blocking waits are
unchanged; the only effect is clearing the coil output pins. -/
theorem move_stepper_nonpositive_steps (n d : Int) (s : StepperState)
    (hn : n ≤ 0) (hd : d = 1 ∨ d = -1) :
    (move_stepper_motor_by_step n d s).coil_position = s.coil_position ∧
    (move_stepper_motor_by_step n d s).wait_calls = s.wait_calls ∧
    (move_stepper_motor_by_step n d s).PORTE = s.PORTE &&& 0x0F := by
  have h0 : n.toNat = 0 := Int.toNat_of_nonpos hn
  rcases hd with h | h <;> subst h <;>
    simp [move_stepper_motor_by_step, h0]

/-- Witness for C10 at `num_steps = -3`, `direction = 1`. -/
theorem move_stepper_nonpositive_steps_witness :
    (move_stepper_motor_by_step (-3) 1 ⟨4, 0xAB, 9⟩).coil_position = 4 ∧
    (move_stepper_motor_by_step (-3) 1 ⟨4, 0xAB, 9⟩).wait_calls = 9 ∧
    (move_stepper_motor_by_step (-3) 1 ⟨4, 0xAB, 9⟩).PORTE = 0x0B := by
  exact move_stepper_nonpositive_steps (-3) 1 ⟨4, 0xAB, 9⟩ (by decide)
    (Or.inl rfl)

set_option maxRecDepth 4096 in
/-- C7: `read_push_buttons` scans the six active-low inputs from shift
index 5 down to 0: it returns 0 exactly when no input bit among 0..5 is low
(no button pressed), and when a bit is low it returns one plus the highest
low index (the first pressed button found, so among simultaneous presses
the highest shift index wins). -/
theorem read_push_buttons_priority :
    ∀ pinc, pinc < 256 →
      (read_push_buttons pinc = 0 ↔ ∀ i, i < 6 → pinc.testBit i = true) ∧
      (∀ i, i < 6 → pinc.testBit i = false →
        (∀ j, j < 6 → i < j → pinc.testBit j = true) →
        read_push_buttons pinc = i + 1) := by
  decide

/-- Witness for C7: pressing only shift index 3 (`PINC = 0xF7`) returns 4;
pressing shift indices 5 and 0 together (`PINC = 0xDE`) returns 6. -/
theorem read_push_buttons_priority_witness :
    read_push_buttons 0xF7 = 4 ∧ read_push_buttons 0xDE = 6 :=
  ⟨(read_push_buttons_priority 0xF7 (by decide)).2 3 (by decide) (by decide)
      (by decide),
   (read_push_buttons_priority 0xDE (by decide)).2 5 (by decide) (by decide)
      (by decide)⟩

/-- C8: `read_shaft_encoder` reports +1 exactly when the previous state is
the released pattern 3 (binary 11) and the new pattern `PINC >> 6` is 1,
reports -1 exactly when the previous state is 3 and the new pattern is 2,
and reports 0 in every other case: whenever the previous state is not 3,
and also when the previous state is 3 but the observed pattern is neither
1 nor 2 (for example 0, both active, or 3, unchanged); the stored state is
updated to the newly observed pattern on every call, so after a +1 a second
consecutive call observing pattern 1 returns 0. -/
theorem read_shaft_encoder_transitions (pinc : Nat) (old_value : Int) :
    (read_shaft_encoder pinc old_value).2 = ((pinc >>> 6 : Nat) : Int) ∧
    ((read_shaft_encoder pinc old_value).1 = 1 ↔
      old_value = 3 ∧ pinc >>> 6 = 1) ∧
    ((read_shaft_encoder pinc old_value).1 = -1 ↔
      old_value = 3 ∧ pinc >>> 6 = 2) ∧
    ((read_shaft_encoder pinc old_value).1 = 0 ↔
      ¬(old_value = 3 ∧ (pinc >>> 6 = 1 ∨ pinc >>> 6 = 2))) ∧
    (read_shaft_encoder 0x40 3).1 = 1 ∧
    (read_shaft_encoder 0x40 ((read_shaft_encoder 0x40 3).2)).1 = 0 := by
  refine ⟨rfl, ?_, ?_, ?_, by decide, by decide⟩
  · by_cases h3 : old_value = 3 <;>
      by_cases e1 : pinc >>> 6 = 1 <;>
        by_cases e2 : pinc >>> 6 = 2 <;>
          simp [read_shaft_encoder, h3, e1, e2] <;> omega
  · by_cases h3 : old_value = 3 <;>
      by_cases e1 : pinc >>> 6 = 1 <;>
        by_cases e2 : pinc >>> 6 = 2 <;>
          simp [read_shaft_encoder, h3, e1, e2] <;> omega
  · by_cases h3 : old_value = 3 <;>
      by_cases e1 : pinc >>> 6 = 1 <;>
        by_cases e2 : pinc >>> 6 = 2 <;>
          simp [read_shaft_encoder, h3, e1, e2] <;> omega

end RobotUtil
